import Mathlib

/-!
Verification of the database-listing node `MongoAccountTreeItem`
(src/mongo/tree/MongoAccountTreeItem.ts).

The TypeScript method `loadMoreChildrenImpl` is embedded as a pure function
over the account state and an environment describing the outcomes of the
external calls it performs (connection-string parsing, client connection,
administrative listing, client close).  JavaScript truthiness of the optional
fields is modelled explicitly.  Errors are represented by their `parseError`
message string.
-/

namespace VsCodeCosmosDB

/-- Record returned by the server's administrative listing; both fields are
optional, as in the TypeScript interface `IDatabaseInfo`. -/
structure IDatabaseInfo where
  name : Option String
  empty : Option Bool
deriving DecidableEq, Repr

/-- Arguments that `loadMoreChildrenImpl` passes to each created child
`MongoDatabaseTreeItem`: the database name and the account's connection
string. -/
structure MongoDatabaseTreeItem where
  databaseName : String
  connectionString : String
deriving DecidableEq, Repr

/-- JavaScript truthiness of a `boolean | undefined` value: `undefined` and
`false` are falsy. -/
def truthyBool : Option Bool → Bool
  | some b => b
  | none => false

/-- JavaScript truthiness of a `string | undefined` value: `undefined` and the
empty string are falsy. -/
def truthyStr : Option String → Bool
  | some s => !(s == "")
  | none => false

/-- Whether `pat` occurs at the head of `s` (over character lists). -/
def startsWith : List Char → List Char → Bool
  | _, [] => true
  | [], _ :: _ => false
  | a :: as, b :: bs => a == b && startsWith as bs

/-- Helper for `strIncludes`: whether `pat` occurs contiguously in `s`. -/
def strIncludesAux : List Char → List Char → Bool
  | [], pat => pat.isEmpty
  | a :: as, pat => startsWith (a :: as) pat || strIncludesAux as pat

/-- JavaScript `String.prototype.includes` (for nonempty patterns): whether
`pat` occurs as a contiguous substring of `s`. -/
def strIncludes (s pat : String) : Bool :=
  strIncludesAux s.data pat.data

/-- Modelled from the spec: `Links.LocalConnectionDebuggingTips` is defined in
`constants.ts`, which is not under src/; the spec only requires it to be the
local-emulator debugging-guidance link text. -/
def Links.LocalConnectionDebuggingTips : String :=
  "https://aka.ms/AA5zah5"

/-- Modelled from the spec: `nonNullProp(database, 'name')` is a helper from
the `vscode-azureextensionui` package (not part of this repository's src/)
that returns the property when present and throws an internal error when it
is null or undefined; the listing maps it over each database record. -/
def nonNullName (d : IDatabaseInfo) : Except String String :=
  match d.name with
  | some s => Except.ok s
  | none => Except.error "Internal error: Expected name to be neither null nor undefined"

/-- JavaScript `String.prototype.toLowerCase`, modelled character by
character (the names compared against "admin" here are ASCII). -/
def jsToLower (s : String) : String :=
  String.mk (s.data.map Char.toLower)

/-- The filter from `loadMoreChildrenImpl`: a database entry is kept unless
its name is truthy, lowercases to "admin", and its empty flag is truthy. -/
def keepDatabase (d : IDatabaseInfo) : Bool :=
  !(truthyStr d.name && jsToLower (d.name.getD "") == "admin" && truthyBool d.empty)

/-- The `.map` step of `loadMoreChildrenImpl`: build a child tree item per
database, throwing (left to right) when a name is missing. -/
def mapChildren (connectionString : String) : List IDatabaseInfo → Except String (List MongoDatabaseTreeItem)
  | [] => Except.ok []
  | d :: rest =>
    match nonNullName d with
    | Except.error e => Except.error e
    | Except.ok n =>
      match mapChildren connectionString rest with
      | Except.error e => Except.error e
      | Except.ok tail => Except.ok (MongoDatabaseTreeItem.mk n connectionString :: tail)

/-- The catch block of `loadMoreChildrenImpl`: when the account is an emulator
and the parsed error message contains "ECONNREFUSED", the message is rewritten
to point at the local-emulator debugging link, keeping the original message as
a suffix; every error is rethrown. -/
def catchTransform (isEmulator : Option Bool) (message : String) : String :=
  if truthyBool isEmulator && strIncludes message "ECONNREFUSED" then
    "Unable to reach emulator. See " ++ Links.LocalConnectionDebuggingTips ++
      " for debugging tips.\n" ++ message
  else
    message

/-- Account state that `loadMoreChildrenImpl` reads: the stored connection
string and the emulator flag of the tree root (`boolean | undefined`). -/
structure Account where
  connectionString : String
  isEmulator : Option Bool
deriving DecidableEq, Repr

/-- Environment of one invocation of `loadMoreChildrenImpl`: the database name
that `getDatabaseNameFromConnectionString` extracts from the connection
string (`string | undefined`), the outcome of `connectToMongoClient`, the
outcome of the administrative `listDatabases` call, and the outcome of
`MongoClient.close`.  Errors carry their `parseError` message. -/
structure Env where
  databaseInConnectionString : Option String
  connectResult : Except String Unit
  listDatabasesResult : Except String (List IDatabaseInfo)
  closeResult : Except String Unit
deriving Repr

/-- Outcome of the listing: the returned children, or the propagated error
message. -/
inductive Outcome where
  | success (children : List MongoDatabaseTreeItem)
  | failure (message : String)
deriving DecidableEq, Repr

/-- Observable result of one run of `loadMoreChildrenImpl`: the outcome plus
whether a client connection was opened, whether `close` was attempted in the
finally block, whether the administrative listing call was issued, and the
value the local `databases` variable was set to (empty when never set). -/
structure RunResult where
  outcome : Outcome
  connectionOpened : Bool
  closeAttempted : Bool
  adminListCalled : Bool
  databases : List IDatabaseInfo
deriving DecidableEq, Repr

/-- Shared tail of `loadMoreChildrenImpl`: filter the databases and map them
to children, routing any thrown error through the catch block.  The client is
connected on this path, so the finally block attempts `close`. -/
def finishRun (acct : Account) (adminCalled : Bool) (databases : List IDatabaseInfo) : RunResult :=
  match mapChildren acct.connectionString (databases.filter keepDatabase) with
  | Except.ok children =>
    { outcome := Outcome.success children
      connectionOpened := true
      closeAttempted := true
      adminListCalled := adminCalled
      databases := databases }
  | Except.error e =>
    { outcome := Outcome.failure (catchTransform acct.isEmulator e)
      connectionOpened := true
      closeAttempted := true
      adminListCalled := adminCalled
      databases := databases }

/-- Embedding of `MongoAccountTreeItem.loadMoreChildrenImpl`.  Mirrors the
TypeScript control flow: reject a falsy connection string; connect; if the
connection string encodes a database name and the account is not an emulator,
short-circuit to that single database; otherwise issue the administrative
listing; filter out the empty "admin" database; map the rest to children.
Every thrown error passes through the catch block; the finally block attempts
`close` exactly when the client was assigned, and its outcome is discarded. -/
def loadMoreChildrenImpl (acct : Account) (env : Env) : RunResult :=
  if acct.connectionString = "" then
    { outcome := Outcome.failure (catchTransform acct.isEmulator "Missing connection string")
      connectionOpened := false
      closeAttempted := false
      adminListCalled := false
      databases := [] }
  else
    match env.connectResult with
    | Except.error e =>
      { outcome := Outcome.failure (catchTransform acct.isEmulator e)
        connectionOpened := false
        closeAttempted := false
        adminListCalled := false
        databases := [] }
    | Except.ok _ =>
      if truthyStr env.databaseInConnectionString && !truthyBool acct.isEmulator then
        finishRun acct false
          [{ name := some (env.databaseInConnectionString.getD ""), empty := some false }]
      else
        match env.listDatabasesResult with
        | Except.error e =>
          { outcome := Outcome.failure (catchTransform acct.isEmulator e)
            connectionOpened := true
            closeAttempted := true
            adminListCalled := true
            databases := [] }
        | Except.ok dbs => finishRun acct true dbs

/-- The characters rejected by the validation regular expression
`[/\\. "$#?]` in `validateDatabaseName`. -/
def forbiddenChars : List Char :=
  ['/', '\\', '.', ' ', '\"', '$', '#', '?']

/-- Embedding of `validateDatabaseName` from `MongoAccountTreeItem.ts`:
returns a violation message for a falsy or out-of-range-length name or a name
containing a forbidden character, and no message otherwise (the source binds
min = 1 and max = 63 and interpolates them into the first message). -/
def validateDatabaseName (database : String) : Option String :=
  if database = "" ∨ database.length < 1 ∨ database.length > 63 then
    some "Database name must be between 1 and 63 characters."
  else if database.data.any (fun c => forbiddenChars.contains c) then
    some "Database name cannot contain these characters - `/\\. \"$#?`"
  else
    none

/-- Claim-side statement of the drop rule, following the spec wording: an
entry is dropped exactly when it is named "admin" (case-insensitively) and
its empty flag is true. -/
def isAdminEmpty (d : IDatabaseInfo) : Bool :=
  (match d.name with
   | some s => jsToLower s == "admin"
   | none => false) && d.empty == some true

/-! Helper lemmas about the embedded operations. -/

theorem truthyBool_eq_beq (o : Option Bool) : truthyBool o = (o == some true) := by
  cases o with
  | none => rfl
  | some b => cases b <;> rfl

theorem jsToLower_empty : jsToLower "" = "" := rfl

theorem keepDatabase_eq_not_isAdminEmpty (d : IDatabaseInfo) :
    keepDatabase d = !isAdminEmpty d := by
  rcases d with ⟨name, e⟩
  cases name with
  | none => simp [keepDatabase, isAdminEmpty, truthyStr]
  | some s =>
    by_cases hs : s = ""
    · subst hs
      simp [keepDatabase, isAdminEmpty, truthyStr, jsToLower_empty]
    · have hsb : (s == "") = false := beq_eq_false_iff_ne.mpr hs
      simp [keepDatabase, isAdminEmpty, truthyStr, hsb, truthyBool_eq_beq]

theorem keepDatabase_funext : keepDatabase = fun d => !isAdminEmpty d :=
  funext keepDatabase_eq_not_isAdminEmpty

theorem mapChildren_ok (cs : String) (l : List IDatabaseInfo)
    (h : ∀ d ∈ l, d.name.isSome) :
    mapChildren cs l =
      Except.ok (l.map (fun d => MongoDatabaseTreeItem.mk (d.name.getD "") cs)) := by
  induction l with
  | nil => rfl
  | cons d rest ih =>
    have hd : d.name.isSome := h d (List.mem_cons_self d rest)
    cases hname : d.name with
    | none => rw [hname] at hd; simp at hd
    | some n =>
      simp [mapChildren, nonNullName, hname,
        ih (fun x hx => h x (List.mem_cons_of_mem _ hx))]

theorem mapChildren_error (cs : String) (l : List IDatabaseInfo)
    (h : ∃ d ∈ l, d.name = none) :
    mapChildren cs l =
      Except.error "Internal error: Expected name to be neither null nor undefined" := by
  induction l with
  | nil => simp at h
  | cons d rest ih =>
    rcases h with ⟨x, hx, hxn⟩
    rcases List.mem_cons.mp hx with rfl | hxr
    · simp [mapChildren, nonNullName, hxn]
    · cases hname : d.name with
      | none => simp [mapChildren, nonNullName, hname]
      | some n => simp [mapChildren, nonNullName, hname, ih ⟨x, hxr, hxn⟩]

theorem finishRun_connectionOpened (acct : Account) (b : Bool) (dbs : List IDatabaseInfo) :
    (finishRun acct b dbs).connectionOpened = true := by
  unfold finishRun; split <;> rfl

theorem finishRun_closeAttempted (acct : Account) (b : Bool) (dbs : List IDatabaseInfo) :
    (finishRun acct b dbs).closeAttempted = true := by
  unfold finishRun; split <;> rfl

theorem finishRun_adminListCalled (acct : Account) (b : Bool) (dbs : List IDatabaseInfo) :
    (finishRun acct b dbs).adminListCalled = b := by
  unfold finishRun; split <;> rfl

/-- C1: for every account whose connection endpoint encodes a database name
`d` (truthy extraction result) and whose emulator flag is not truthy, a run
whose connection succeeds returns exactly the single database
`{name := d, empty := false}` as the one child, without issuing the
administrative list-databases call, whatever the server would have listed. -/
theorem shortCircuit_database_in_connection_string
    (acct : Account) (env : Env) (d : String)
    (hcs : acct.connectionString ≠ "")
    (hconn : env.connectResult = Except.ok ())
    (hdb : env.databaseInConnectionString = some d) (hd : d ≠ "")
    (hemu : truthyBool acct.isEmulator = false) :
    loadMoreChildrenImpl acct env =
      { outcome := Outcome.success [MongoDatabaseTreeItem.mk d acct.connectionString]
        connectionOpened := true
        closeAttempted := true
        adminListCalled := false
        databases := [{ name := some d, empty := some false }] } := by
  have hdb' : (d == "") = false := beq_eq_false_iff_ne.mpr hd
  have htb : truthyBool (some false) = false := rfl
  simp only [loadMoreChildrenImpl, hconn]
  rw [if_neg hcs]
  simp [hdb, truthyStr, hdb', hemu, finishRun, keepDatabase, htb, mapChildren, nonNullName]

/-- Witness for C1 at a concrete account and environment. -/
theorem shortCircuit_database_in_connection_string_witness :
    loadMoreChildrenImpl ⟨"mongodb://contoso.example:10255/mydb", some false⟩
        ⟨some "mydb", Except.ok (), Except.ok [], Except.ok ()⟩ =
      { outcome := Outcome.success
          [MongoDatabaseTreeItem.mk "mydb" "mongodb://contoso.example:10255/mydb"]
        connectionOpened := true
        closeAttempted := true
        adminListCalled := false
        databases := [{ name := some "mydb", empty := some false }] } :=
  shortCircuit_database_in_connection_string _ _ "mydb" (by decide) rfl rfl (by decide) rfl

/-- C2: for every account whose emulator flag is truthy, a run whose
connection succeeds always issues the administrative list-databases call,
even when the connection string encodes a database name. -/
theorem emulator_always_lists (acct : Account) (env : Env)
    (hcs : acct.connectionString ≠ "")
    (hconn : env.connectResult = Except.ok ())
    (hemu : truthyBool acct.isEmulator = true) :
    (loadMoreChildrenImpl acct env).adminListCalled = true := by
  simp only [loadMoreChildrenImpl, hconn]
  rw [if_neg hcs]
  rcases hl : env.listDatabasesResult with e | dbs <;>
    simp [hemu, hl, finishRun_adminListCalled]

/-- Witness for C2: an emulator account whose connection string encodes a
database name still triggers the administrative listing. -/
theorem emulator_always_lists_witness :
    (loadMoreChildrenImpl ⟨"mongodb://localhost:10255/mydb", some true⟩
        ⟨some "mydb", Except.ok (), Except.ok [⟨some "db1", some false⟩],
          Except.ok ()⟩).adminListCalled = true :=
  emulator_always_lists _ _ (by decide) rfl rfl

/-- C6: for every account whose connection string is empty, the listing fails
immediately with the configuration error "Missing connection string", with no
connection opened, no close attempted, and no administrative call issued. -/
theorem missing_connection_string (acct : Account) (env : Env)
    (hcs : acct.connectionString = "") :
    loadMoreChildrenImpl acct env =
      { outcome := Outcome.failure "Missing connection string"
        connectionOpened := false
        closeAttempted := false
        adminListCalled := false
        databases := [] } := by
  have h : strIncludes "Missing connection string" "ECONNREFUSED" = false := by decide
  simp [loadMoreChildrenImpl, hcs, catchTransform, h]

/-- Witness for C6 at a concrete account with an empty connection string. -/
theorem missing_connection_string_witness :
    loadMoreChildrenImpl ⟨"", some true⟩ ⟨none, Except.ok (), Except.ok [], Except.ok ()⟩ =
      { outcome := Outcome.failure "Missing connection string"
        connectionOpened := false
        closeAttempted := false
        adminListCalled := false
        databases := [] } :=
  missing_connection_string ⟨"", some true⟩ ⟨none, Except.ok (), Except.ok [], Except.ok ()⟩ rfl

/-- C3: on the administrative path, a successful server listing yields, in
the server-returned order, exactly the entries that are not both named
"admin" (case-insensitively) and flagged empty, each mapped to a child
carrying its name. -/
theorem filter_admin_empty (acct : Account) (env : Env) (dbs : List IDatabaseInfo)
    (hcs : acct.connectionString ≠ "")
    (hconn : env.connectResult = Except.ok ())
    (hpath : (truthyStr env.databaseInConnectionString && !truthyBool acct.isEmulator) = false)
    (hlist : env.listDatabasesResult = Except.ok dbs)
    (hnames : ∀ d ∈ dbs.filter (fun d => !isAdminEmpty d), d.name.isSome) :
    (loadMoreChildrenImpl acct env).outcome =
      Outcome.success ((dbs.filter (fun d => !isAdminEmpty d)).map
        (fun d => MongoDatabaseTreeItem.mk (d.name.getD "") acct.connectionString)) := by
  have hif : ¬((truthyStr env.databaseInConnectionString &&
      !truthyBool acct.isEmulator) = true) := by simp [hpath]
  have hmap : mapChildren acct.connectionString (dbs.filter keepDatabase) =
      Except.ok ((dbs.filter (fun d => !isAdminEmpty d)).map
        (fun d => MongoDatabaseTreeItem.mk (d.name.getD "") acct.connectionString)) := by
    rw [keepDatabase_funext]
    exact mapChildren_ok _ _ hnames
  simp only [loadMoreChildrenImpl, hconn]
  rw [if_neg hcs, if_neg hif, hlist]
  simp [finishRun, hmap]

/-- Witness for C3 at the server listing from the spec's worked example. -/
theorem filter_admin_empty_witness :
    (loadMoreChildrenImpl ⟨"mongodb://contoso.example:10255/", none⟩
        ⟨none, Except.ok (),
          Except.ok [⟨some "admin", some true⟩, ⟨some "admin", some false⟩,
            ⟨some "Sales", some false⟩],
          Except.ok ()⟩).outcome =
      Outcome.success
        [MongoDatabaseTreeItem.mk "admin" "mongodb://contoso.example:10255/",
         MongoDatabaseTreeItem.mk "Sales" "mongodb://contoso.example:10255/"] := by
  rw [filter_admin_empty _ _ _ (by decide) rfl (by decide) rfl (by decide)]
  decide

/-- C4: first part — on a connection failure against an emulator account whose
error message contains "ECONNREFUSED", the propagated message is exactly the
debugging-guidance text followed by the original message; second part — every
connection failure is re-raised as a failure outcome (never swallowed). -/
theorem emulator_connection_refused :
    (∀ (acct : Account) (env : Env) (msg : String),
      acct.connectionString ≠ "" →
      env.connectResult = Except.error msg →
      truthyBool acct.isEmulator = true →
      strIncludes msg "ECONNREFUSED" = true →
      (loadMoreChildrenImpl acct env).outcome =
        Outcome.failure ("Unable to reach emulator. See " ++
          Links.LocalConnectionDebuggingTips ++ " for debugging tips.\n" ++ msg)) ∧
    (∀ (acct : Account) (env : Env) (msg : String),
      acct.connectionString ≠ "" →
      env.connectResult = Except.error msg →
      ∃ m, (loadMoreChildrenImpl acct env).outcome = Outcome.failure m) := by
  constructor
  · intro acct env msg hcs hconn hemu hrefused
    simp only [loadMoreChildrenImpl, hconn]
    rw [if_neg hcs]
    simp [catchTransform, hemu, hrefused]
  · intro acct env msg hcs hconn
    refine ⟨catchTransform acct.isEmulator msg, ?_⟩
    simp only [loadMoreChildrenImpl, hconn]
    rw [if_neg hcs]

/-- Witness for C4 at a concrete emulator account and refused connection. -/
theorem emulator_connection_refused_witness :
    (loadMoreChildrenImpl ⟨"mongodb://localhost:10255", some true⟩
        ⟨none, Except.error "connect ECONNREFUSED 127.0.0.1:10255", Except.ok [],
          Except.ok ()⟩).outcome =
      Outcome.failure ("Unable to reach emulator. See " ++
        Links.LocalConnectionDebuggingTips ++ " for debugging tips.\n" ++
        "connect ECONNREFUSED 127.0.0.1:10255") :=
  emulator_connection_refused.1 _ _ _ (by decide) rfl rfl (by decide)

/-- C5: the finally block attempts `close` exactly when a client connection
was opened (on success and on failure alike), and the outcome of `close`
never changes any part of the run's result. -/
theorem close_attempted_and_never_masks (acct : Account) (env : Env)
    (c₁ c₂ : Except String Unit) :
    (loadMoreChildrenImpl acct env).closeAttempted =
        (loadMoreChildrenImpl acct env).connectionOpened ∧
    loadMoreChildrenImpl acct { env with closeResult := c₁ } =
      loadMoreChildrenImpl acct { env with closeResult := c₂ } := by
  constructor
  · unfold loadMoreChildrenImpl
    split
    · rfl
    · split
      · rfl
      · split
        · rw [finishRun_closeAttempted, finishRun_connectionOpened]
        · split
          · rfl
          · rw [finishRun_closeAttempted, finishRun_connectionOpened]
  · rcases env with ⟨a, b, c, d⟩
    rfl

/-- C7: name validation returns no message exactly when the name has length
in [1, 63] and contains none of the characters in the forbidden set; in
particular the empty name, a 64-character name, and "My/DB" are invalid,
while "Sales2024" is valid. -/
theorem validateDatabaseName_characterization :
    (∀ s : String, validateDatabaseName s = none ↔
      (1 ≤ s.length ∧ s.length ≤ 63 ∧ ∀ c ∈ s.data, c ∉ forbiddenChars)) ∧
    validateDatabaseName "" ≠ none ∧
    validateDatabaseName (String.mk (List.replicate 64 'a')) ≠ none ∧
    validateDatabaseName "My/DB" ≠ none ∧
    validateDatabaseName "Sales2024" = none := by
  refine ⟨fun s => ?_, by decide, by decide, by decide, by decide⟩
  unfold validateDatabaseName
  by_cases h1 : s = "" ∨ s.length < 1 ∨ s.length > 63
  · rw [if_pos h1]
    constructor
    · intro h; exact absurd h (by simp)
    · rintro ⟨ha, hb, -⟩
      exfalso
      rcases h1 with h | h | h
      · subst h; exact absurd ha (by decide)
      · omega
      · omega
  · rw [if_neg h1]
    push_neg at h1
    obtain ⟨hne, hmin, hmax⟩ := h1
    by_cases h2 : s.data.any (fun c => forbiddenChars.contains c) = true
    · rw [if_pos h2]
      constructor
      · intro h; exact absurd h (by simp)
      · rintro ⟨-, -, hc⟩
        exfalso
        obtain ⟨c, hcmem, hcc⟩ := List.any_eq_true.mp h2
        exact hc c hcmem (List.elem_iff.mp hcc)
    · rw [if_neg h2]
      constructor
      · intro _
        refine ⟨by omega, by omega, fun c hcmem hcc => ?_⟩
        exact h2 (List.any_eq_true.mpr ⟨c, hcmem, List.elem_iff.mpr hcc⟩)
      · intro _; rfl

/-- Witness for C7: the characterization applied at the concrete valid name
"Sales2024". -/
theorem validateDatabaseName_characterization_witness :
    validateDatabaseName "Sales2024" = none :=
  (validateDatabaseName_characterization.1 "Sales2024").mpr (by decide)

/-- C8 counterexample: an emulator account whose administrative listing fails
with a message containing "ECONNREFUSED" does not see that message surfaced
verbatim — the shared catch block rewrites it. -/
theorem listError_verbatim_counterexample :
    ¬((loadMoreChildrenImpl ⟨"mongodb://localhost:10255", some true⟩
        ⟨none, Except.ok (), Except.error "connect ECONNREFUSED 127.0.0.1:10255",
          Except.ok ()⟩).outcome =
      Outcome.failure "connect ECONNREFUSED 127.0.0.1:10255") := by decide

/-- C8 amended: an error from the administrative listing is surfaced with its
message unchanged, except when the account is an emulator and the message
contains "ECONNREFUSED", in which case the propagated message is the
debugging-guidance text with the original message appended. -/
theorem listError_surfaced (acct : Account) (env : Env) (e : String)
    (hcs : acct.connectionString ≠ "")
    (hconn : env.connectResult = Except.ok ())
    (hpath : (truthyStr env.databaseInConnectionString && !truthyBool acct.isEmulator) = false)
    (hlist : env.listDatabasesResult = Except.error e) :
    (loadMoreChildrenImpl acct env).outcome =
      Outcome.failure
        (if truthyBool acct.isEmulator && strIncludes e "ECONNREFUSED" then
          "Unable to reach emulator. See " ++ Links.LocalConnectionDebuggingTips ++
            " for debugging tips.\n" ++ e
        else e) := by
  have hif : ¬((truthyStr env.databaseInConnectionString &&
      !truthyBool acct.isEmulator) = true) := by simp [hpath]
  simp only [loadMoreChildrenImpl, hconn]
  rw [if_neg hcs, if_neg hif, hlist]
  simp [catchTransform]

/-- Witness for the amended C8: a non-emulator authorization failure of the
listing call is surfaced verbatim. -/
theorem listError_surfaced_witness :
    (loadMoreChildrenImpl ⟨"mongodb://contoso.example:10255/", some false⟩
        ⟨none, Except.ok (), Except.error "not authorized on admin to execute command",
          Except.ok ()⟩).outcome =
      Outcome.failure "not authorized on admin to execute command" := by
  rw [listError_surfaced _ _ _ (by decide) rfl (by decide) rfl]
  decide

/-- C9: name validation is deterministic — two invocations on the same input
return the same result; the embedding of `validateDatabaseName` is a pure
function of its argument alone, touching no state. -/
theorem validateDatabaseName_pure (s t : String) (h : s = t) :
    validateDatabaseName s = validateDatabaseName t := by rw [h]

/-- Witness for C9 at a concrete input. -/
theorem validateDatabaseName_pure_witness :
    validateDatabaseName "Sales2024" = validateDatabaseName "Sales2024" :=
  validateDatabaseName_pure "Sales2024" "Sales2024" rfl

/-- C10: a nameless entry in the server listing is never dropped by the admin
filter, and its presence makes the whole listing fail with the internal
non-null error instead of skipping the entry or returning a partial result. -/
theorem nameless_entry_fails (acct : Account) (env : Env)
    (dbs : List IDatabaseInfo) (d : IDatabaseInfo)
    (hcs : acct.connectionString ≠ "")
    (hconn : env.connectResult = Except.ok ())
    (hpath : (truthyStr env.databaseInConnectionString && !truthyBool acct.isEmulator) = false)
    (hlist : env.listDatabasesResult = Except.ok dbs)
    (hd : d ∈ dbs) (hdn : d.name = none) :
    keepDatabase d = true ∧
    (loadMoreChildrenImpl acct env).outcome =
      Outcome.failure "Internal error: Expected name to be neither null nor undefined" := by
  have hkeep : keepDatabase d = true := by
    simp [keepDatabase, hdn, truthyStr]
  refine ⟨hkeep, ?_⟩
  have hif : ¬((truthyStr env.databaseInConnectionString &&
      !truthyBool acct.isEmulator) = true) := by simp [hpath]
  have hmem : d ∈ dbs.filter keepDatabase := List.mem_filter.mpr ⟨hd, hkeep⟩
  have hmap := mapChildren_error acct.connectionString (dbs.filter keepDatabase) ⟨d, hmem, hdn⟩
  have hinc : strIncludes
      "Internal error: Expected name to be neither null nor undefined" "ECONNREFUSED" = false := by
    decide
  simp only [loadMoreChildrenImpl, hconn]
  rw [if_neg hcs, if_neg hif, hlist]
  simp [finishRun, hmap, catchTransform, hinc]

/-- Witness for C10 at a concrete listing holding one nameless entry. -/
theorem nameless_entry_fails_witness :
    keepDatabase ⟨none, some false⟩ = true ∧
    (loadMoreChildrenImpl ⟨"mongodb://contoso.example:10255/", none⟩
        ⟨none, Except.ok (), Except.ok [⟨none, some false⟩], Except.ok ()⟩).outcome =
      Outcome.failure "Internal error: Expected name to be neither null nor undefined" :=
  nameless_entry_fails _ _ _ ⟨none, some false⟩ (by decide) rfl (by decide) rfl
    (by decide) rfl

end VsCodeCosmosDB
